import Mathlib

/-!
Verification of the Gateway Connection Manager
(src/electron/gateway/manager.ts, class GatewayManager).

The development shallowly embeds the manager state and the operations the
claims refer to: scheduleReconnect, start, stop, rpc, handleMessage (response
frames), the provider-environment construction in startProcess, and getStatus.
Asynchronous callback interleavings (response arrival, timer firing, stop)
are modelled as a labelled transition system over the pending-request table,
with a ghost history recording every settlement of a pending request.
-/

/-- Connection state component of GatewayStatus
(manager.ts line 30: stopped | starting | running | error | reconnecting). -/
inductive GState where
  | stopped
  | starting
  | running
  | error
  | reconnecting
deriving DecidableEq, Repr

/-- Embedding of the GatewayStatus interface (manager.ts lines 29-38).
Timestamps and durations are Nat milliseconds. -/
structure GatewayStatus where
  state : GState
  port : Nat
  pid : Option Nat
  uptime : Option Nat
  error : Option String
  connectedAt : Option Nat
  version : Option String
  reconnectAttempts : Option Nat
deriving DecidableEq, Repr

/-- WebSocket readyState (ws library): CONNECTING | OPEN | CLOSING | CLOSED.
The OPEN state is named opened because open is a Lean keyword. -/
inductive WSState where
  | connecting
  | opened
  | closing
  | closed
deriving DecidableEq, Repr

/-- Embedding of ReconnectConfig (manager.ts lines 56-60). -/
structure ReconnectConfig where
  maxAttempts : Nat
  baseDelay : Nat
  maxDelay : Nat
deriving DecidableEq, Repr

/-- DEFAULT_RECONNECT_CONFIG (manager.ts lines 62-66). -/
def defaultReconnectConfig : ReconnectConfig :=
  { maxAttempts := 10, baseDelay := 1000, maxDelay := 30000 }

/-- How a pending RPC request was settled (ghost record; the code settles an
entry by calling resolve or reject exactly at the sites modelled below). -/
inductive SettleKind where
  | resolved
  | rejectedErr
  | rejectedTimeout
  | rejectedStopped
  | rejectedSendErr
deriving DecidableEq, Repr

/-- Manager instance state: the mutable fields of class GatewayManager
(manager.ts lines 106-122).  The pending-request map is modelled as the list
of pending ids (the timer of each entry is live exactly while the entry is in the
map: every settlement site clears the timer as it deletes the entry).
history is a ghost log of settlements used to state the settle-once claims. -/
structure MState where
  status : GatewayStatus
  cfg : ReconnectConfig
  reconnectTimer : Option Nat
  pingOn : Bool
  healthOn : Bool
  reconnectAttempts : Nat
  shouldReconnect : Bool
  startLock : Bool
  ownsProcess : Bool
  ws : Option WSState
  processHandle : Option Nat
  pending : List String
  history : List (String × SettleKind)
deriving DecidableEq, Repr

/-- Field-initializer state of a freshly constructed GatewayManager
(manager.ts lines 106-122; status starts stopped on the configured port). -/
def initialState (port : Nat) : MState :=
  { status := { state := GState.stopped, port := port, pid := none,
                uptime := none, error := none, connectedAt := none,
                version := none, reconnectAttempts := none }
    cfg := defaultReconnectConfig
    reconnectTimer := none
    pingOn := false
    healthOn := false
    reconnectAttempts := 0
    shouldReconnect := true
    startLock := false
    ownsProcess := false
    ws := none
    processHandle := none
    pending := []
    history := [] }

/-- The exponential-backoff delay computed by scheduleReconnect
(manager.ts lines 998-1001): min(baseDelay * 2^attempts, maxDelay). -/
def reconnectDelay (cfg : ReconnectConfig) (attempts : Nat) : Nat :=
  min (cfg.baseDelay * 2 ^ attempts) cfg.maxDelay

/-- Embedding of GatewayManager.scheduleReconnect (manager.ts lines 977-1036).
Returns the state after the synchronous body runs: early return when
auto-reconnect is disabled or a timer is already pending; terminal error
status when the attempt counter has reached maxAttempts; otherwise schedules
a timer with the backoff delay, increments the counter and sets status to
reconnecting.  (setStatus only recomputes uptime when the new state is
running, which never holds here, so the status merge is inlined.) -/
def scheduleReconnect (m : MState) : MState :=
  if !m.shouldReconnect then m
  else if m.reconnectTimer.isSome then m
  else if m.cfg.maxAttempts ≤ m.reconnectAttempts then
    { m with status := { m.status with
        state := GState.error,
        error := some "Failed to reconnect after maximum attempts",
        reconnectAttempts := some m.reconnectAttempts } }
  else
    { m with
      reconnectAttempts := m.reconnectAttempts + 1,
      reconnectTimer := some (reconnectDelay m.cfg m.reconnectAttempts),
      status := { m.status with
        state := GState.reconnecting,
        reconnectAttempts := some (m.reconnectAttempts + 1) } }

/-- Immediate outcome of a call to rpc (manager.ts lines 343-381):
either the promise rejects synchronously (socket missing or not OPEN, or the
send threw) or a PendingRequest entry is registered with the fresh id. -/
inductive RpcImmediate where
  | notConnected
  | sendFailed
  | registered
deriving DecidableEq, Repr

/-- Embedding of the synchronous body of GatewayManager.rpc
(manager.ts lines 343-381).  Arguments: the fresh request id and whether
ws.send succeeds.  Returns the updated state, the immediate outcome, and
whether a send of the request frame was attempted on the socket.
When the socket is absent or not OPEN the promise rejects at once, nothing
is sent and no entry is created.  When the send throws, the entry that was
just stored is deleted again and its timer cleared, so the state is back to
the input state. -/
def rpcAttempt (m : MState) (id : String) (sendOk : Bool) :
    MState × RpcImmediate × Bool :=
  if m.ws ≠ some WSState.opened then (m, RpcImmediate.notConnected, false)
  else if sendOk then
    ({ m with pending := m.pending ++ [id] }, RpcImmediate.registered, true)
  else
    ({ m with history := m.history ++ [(id, SettleKind.rejectedSendErr)] },
      RpcImmediate.sendFailed, true)

/-- Externally visible actions of the start flow (spawning a process,
attempting the WebSocket connection).  Used to state that an overlapping
second start call performs none of them. -/
inductive StartAction where
  | probe
  | spawnProcess
  | connectAttempt
deriving DecidableEq, Repr

/-- Environment facts a start call observes: whether the existence probe
finds a Gateway already listening on the port. -/
structure StartEnv where
  existingGateway : Bool
deriving DecidableEq, Repr

/-- The synchronous head of GatewayManager.start (manager.ts lines 188-201),
run after the two guard returns: take the lock, enable auto-reconnect,
cancel any pending reconnect timer, reset the attempt counter to zero and set
status to starting. -/
def startHead (m : MState) : MState :=
  { m with
    startLock := true,
    shouldReconnect := true,
    reconnectTimer := none,
    reconnectAttempts := 0,
    status := { m.status with
      state := GState.starting,
      reconnectAttempts := some 0 } }

/-- Embedding of GatewayManager.start (manager.ts lines 177-252) on the
success path, abstracting awaited sub-steps into the observed environment.
Returns the state reached together with the list of external actions taken.
The two guard clauses return immediately with no side effect: when the
start-lock is held, and when the status is already running.  Otherwise the
synchronous head runs, then either the probe finds an existing Gateway (the
manager attaches without spawning, clears ownership and pid) or a new process
is spawned, awaited and connected.  The finally clause releases the lock. -/
def startCall (env : StartEnv) (m : MState) : MState × List StartAction :=
  if m.startLock then (m, [])
  else if m.status.state = GState.running then (m, [])
  else
    let m1 := startHead m
    if env.existingGateway then
      ({ m1 with
          startLock := false,
          ownsProcess := false,
          ws := some WSState.opened,
          healthOn := true,
          status := { m1.status with state := GState.running, pid := none } },
        [StartAction.probe, StartAction.connectAttempt])
    else
      ({ m1 with
          startLock := false,
          ownsProcess := true,
          ws := some WSState.opened,
          healthOn := true,
          status := { m1.status with state := GState.running } },
        [StartAction.probe, StartAction.spawnProcess, StartAction.connectAttempt])

/-- Asynchronous events that act on the pending-request table: rpc
registering a fresh entry (send succeeded), rpc whose send threw, a response
frame arriving for an id, the per-request timeout firing, and the
reject-all loop of stop (manager.ts lines 300-305). -/
inductive RpcEvent where
  | call (id : String)
  | callSendFail (id : String)
  | response (id : String) (ok : Bool)
  | timeoutFire (id : String)
  | stopAll
deriving DecidableEq, Repr

/-- One step of the pending-request table under an event, acting only on the
pending and history fields of the manager state.
call: rpc stores the entry (manager.ts line 359).
callSendFail: the entry is stored, then deleted and rejected when send throws
(lines 375-379), so the table is unchanged and one settlement is recorded.
response: handleMessage settles and removes a matching entry, clearing its
timer; a non-matching id falls through and settles nothing (lines 860-875).
timeoutFire: the timeout callback deletes the entry and rejects (lines
353-356); it can only run while the entry is still in the table, since every
settlement site clears the timer as it deletes the entry.
stopAll: stop rejects every entry with a stopped error, clearing each timer,
and empties the table (lines 300-305). -/
def stepCorr (m : MState) : RpcEvent → MState
  | RpcEvent.call id => { m with pending := m.pending ++ [id] }
  | RpcEvent.callSendFail id =>
      { m with history := m.history ++ [(id, SettleKind.rejectedSendErr)] }
  | RpcEvent.response id ok =>
      if id ∈ m.pending then
        { m with
          pending := m.pending.erase id,
          history := m.history ++
            [(id, if ok then SettleKind.resolved else SettleKind.rejectedErr)] }
      else m
  | RpcEvent.timeoutFire id =>
      if id ∈ m.pending then
        { m with
          pending := m.pending.erase id,
          history := m.history ++ [(id, SettleKind.rejectedTimeout)] }
      else m
  | RpcEvent.stopAll =>
      { m with
        pending := [],
        history := m.history ++
          m.pending.map (fun i => (i, SettleKind.rejectedStopped)) }

/-- Which events can actually occur in a given state.  A call uses a freshly
generated UUID, so its id matches no live entry and no past settlement; a
timeout can fire only while its entry is still pending (its timer is cleared
whenever the entry is settled); responses and stop can always occur. -/
def validEvent (m : MState) : RpcEvent → Prop
  | RpcEvent.call id => id ∉ m.pending ∧ ∀ e ∈ m.history, e.1 ≠ id
  | RpcEvent.callSendFail id => id ∉ m.pending ∧ ∀ e ∈ m.history, e.1 ≠ id
  | RpcEvent.response _ _ => True
  | RpcEvent.timeoutFire id => id ∈ m.pending
  | RpcEvent.stopAll => True

/-- A trace of events, each valid in the state reached so far. -/
def ValidTrace : MState → List RpcEvent → Prop
  | _, [] => True
  | m, e :: rest => validEvent m e ∧ ValidTrace (stepCorr m e) rest

/-- Run a list of events from a state. -/
def runEvents (m : MState) (t : List RpcEvent) : MState :=
  t.foldl stepCorr m

/-- Number of settlements recorded for a given request id. -/
def settleCount (m : MState) (id : String) : Nat :=
  m.history.countP (fun e => e.1 = id)

/-- Timer/guard teardown at the head of GatewayManager.stop
(manager.ts lines 258-263): disable auto-reconnect, then clearAllTimers
(lines 324-337) cancels the reconnect, ping and health-check timers. -/
def stopTimersOff (m : MState) : MState :=
  { m with
    shouldReconnect := false,
    reconnectTimer := none,
    pingOn := false,
    healthOn := false }

/-- First phase of GatewayManager.stop (manager.ts lines 257-273): timer
teardown, then, when the manager is attached to an external gateway and the
socket is OPEN, a shutdown request is sent over protocol via rpc, which
registers a pending entry with the fresh id sid.  stop then awaits that rpc,
so further pending-table events (modelled separately) can occur before the
second phase runs.  For an owned process there is no await and the second
phase follows immediately. -/
def stopPhase1 (m : MState) (sid : String) : MState :=
  let m1 := stopTimersOff m
  if m1.ownsProcess = false ∧ m1.ws = some WSState.opened then
    { m1 with pending := m1.pending ++ [sid] }
  else m1

/-- Second phase of GatewayManager.stop (manager.ts lines 275-307): close and
drop the socket, drop the process handle, clear ownership, reject every
remaining pending request with a stopped error (clearing each timer), empty
the table, and set status to stopped. -/
def stopPhase2 (m : MState) : MState :=
  { m with
    ws := none,
    processHandle := none,
    ownsProcess := false,
    pending := [],
    history := m.history ++
      m.pending.map (fun i => (i, SettleKind.rejectedStopped)),
    status := { m.status with
      state := GState.stopped, error := none, pid := none,
      connectedAt := none, uptime := none } }

/-- A whole stop call: phase 1, then the pending-table events evs delivered
while stop awaits the graceful-shutdown rpc of an external gateway (evs is
empty on the owned-process path, which has no await), then phase 2. -/
def stopRun (m : MState) (sid : String) (evs : List RpcEvent) : MState :=
  stopPhase2 (runEvents (stopPhase1 m sid) evs)

/-- Outward actions of GatewayManager.stop relevant to process termination
(manager.ts lines 265-298). -/
inductive StopAction where
  | requestShutdownRpc
  | closeWs
  | sigterm (pid : Nat)
  | scheduleForceKill (graceMs : Nat)
deriving DecidableEq, Repr

/-- The ordered outward actions stop takes (manager.ts lines 265-298):
a protocol shutdown request when the process is external and the socket is
OPEN; a socket close when a socket exists; and, only when a process handle
exists and is owned, a SIGTERM followed by a force-kill timer with a
5000 ms grace period. -/
def stopActions (m : MState) : List StopAction :=
  (if m.ownsProcess = false ∧ m.ws = some WSState.opened then
    [StopAction.requestShutdownRpc]
   else [])
  ++ (if m.ws.isSome then [StopAction.closeWs] else [])
  ++ (match m.processHandle, m.ownsProcess with
      | some pid, true =>
        [StopAction.sigterm pid, StopAction.scheduleForceKill 5000]
      | _, _ => [])

/-- The force-kill timer body (manager.ts lines 287-295): SIGKILL is sent
exactly when the exitCode of the child is still null when the timer fires. -/
def forceKillFires (exitCode : Option Int) : Bool :=
  exitCode.isNone

/-- Remote error object of a response frame, cast in handleMessage to
an object with optional message and code (manager.ts line 867). -/
structure RError where
  message : Option String
  code : Option Int
deriving DecidableEq, Repr

/-- JSON.stringify of the remote error object with its present fields. -/
def stringifyRError (e : RError) : String :=
  let fields :=
    (match e.message with
     | some s => ["\"message\":\"" ++ s ++ "\""]
     | none => []) ++
    (match e.code with
     | some c => ["\"code\":" ++ toString c]
     | none => [])
  "\x7b" ++ String.intercalate "," fields ++ "\x7d"

/-- The rejection message built by handleMessage (manager.ts line 868):
errorObj?.message || JSON.stringify(msg.error) || default.  An empty message
string is falsy in JS and falls through to the stringified object; a missing
error object stringifies to undefined and falls through to the default. -/
def errMsgOf : Option RError → String
  | none => "Unknown error"
  | some e =>
    match e.message with
    | some s => if s = "" then stringifyRError e else s
    | none => stringifyRError e

/-- An inbound response frame of shape type "res" with a string id
(manager.ts lines 860-875).  ok is the optional ok flag; error is the error
field when present and truthy (a falsy error value is equivalent to its
absence in the test the code makes); payload is the payload when present and
non-nullish, modelled opaquely as a string. -/
structure ResFrame where
  id : String
  ok : Option Bool
  error : Option RError
  payload : Option String
deriving DecidableEq, Repr

/-- What a matched pending request is resolved with: the payload of the frame
when it is non-nullish, otherwise the entire frame object
(request.resolve(msg.payload ?? msg), manager.ts line 871). -/
inductive ResolveVal where
  | payloadVal (p : String)
  | wholeFrame
deriving DecidableEq, Repr

/-- Settlement of a matched pending request. -/
inductive ResOutcome where
  | resolve (v : ResolveVal)
  | reject (msg : String)
deriving DecidableEq, Repr

/-- The settlement handleMessage applies to a matched response frame
(manager.ts lines 866-872): reject with the remote error message when ok is
false or an error is present; otherwise resolve with payload ?? frame. -/
def settleOfRes (f : ResFrame) : ResOutcome :=
  if f.ok = some false ∨ f.error.isSome then
    ResOutcome.reject (errMsgOf f.error)
  else
    match f.payload with
    | some p => ResOutcome.resolve (ResolveVal.payloadVal p)
    | none => ResOutcome.resolve ResolveVal.wholeFrame

/-- Ghost settle-kind of a response settlement. -/
def kindOfOutcome : ResOutcome → SettleKind
  | ResOutcome.resolve _ => SettleKind.resolved
  | ResOutcome.reject _ => SettleKind.rejectedErr

/-- Embedding of the response branch of GatewayManager.handleMessage
(manager.ts lines 860-875): a frame whose id matches a pending entry clears
the timer of the entry, removes it and settles it per settleOfRes; a frame whose
id matches nothing settles nothing and leaves the table unchanged. -/
def handleRes (m : MState) (f : ResFrame) : MState × Option ResOutcome :=
  if f.id ∈ m.pending then
    ({ m with
        pending := m.pending.erase f.id,
        history := m.history ++ [(f.id, kindOfOutcome (settleOfRes f))] },
      some (settleOfRes f))
  else (m, none)

/-- JS object property assignment on a string-keyed environment record. -/
def envSet (env : String → Option String) (k v : String) :
    String → Option String :=
  fun x => if x = k then some v else env x

/-- Embedding of the providerEnv construction in GatewayManager.startProcess
(manager.ts lines 524-561).  Parameters are the storage collaborators:
defaultProviderId is getDefaultProvider(); providerTypeOf id is
getProvider(id)?.type; apiKeyOf looks up getApiKey for an id (instance id or
provider type); envVarOf is getProviderEnvVar; providerTypes is
getKeyableProviderTypes().  First, when the default provider resolves to a
type, a key and an env var name, that key is assigned; then the loop over
providerTypes assigns the key of every type that has one, overwriting any
existing assignment for the same env var name. -/
def buildProviderEnv (defaultProviderId : Option String)
    (providerTypeOf : String → Option String)
    (apiKeyOf : String → Option String)
    (envVarOf : String → Option String)
    (providerTypes : List String) : String → Option String :=
  let env0 : String → Option String := fun _ => none
  let env1 :=
    match defaultProviderId with
    | none => env0
    | some pid =>
      match providerTypeOf pid, apiKeyOf pid with
      | some ty, some key =>
        match envVarOf ty with
        | some v => envSet env0 v key
        | none => env0
      | _, _ => env0
  providerTypes.foldl (fun env ty =>
    match apiKeyOf ty with
    | some key =>
      match envVarOf ty with
      | some v => envSet env v key
      | none => env
    | none => env) env1

/-- The environment of the spawned child for a variable name (manager.ts lines
570-578): spread order is ambient process.env, then PATH, then providerEnv,
then the uv mirror env, then the fixed gateway-token variables; a later
spread overrides an earlier one.  PATH and the fixed variables are not
provider env var names, so for the variables C6 is about the merge reduces
to: uv mirror value if present, else provider value if present, else
ambient. -/
def childEnv (ambient providerEnv uvEnv : String → Option String)
    (k : String) : Option String :=
  match uvEnv k with
  | some v => some v
  | none =>
    match providerEnv k with
    | some v => some v
    | none => ambient k

/-- A heap of status objects addressed by reference, to express the aliasing
content of getStatus (all GatewayStatus fields are primitive values, so the
shallow spread copy in manager.ts line 164 copies the whole value). -/
abbrev Heap := List (Nat × GatewayStatus)

/-- Read the status object a reference points to (first binding wins). -/
def heapGet : Heap → Nat → Option GatewayStatus
  | [], _ => none
  | p :: t, r => if p.1 = r then some p.2 else heapGet t r

/-- Mutate the object behind one reference (leaving the object behind every
other reference untouched). -/
def heapSet : Heap → Nat → GatewayStatus → Heap
  | [], _, _ => []
  | p :: t, r, s => (if p.1 = r then (r, s) else p) :: heapSet t r s

/-- Embedding of GatewayManager.getStatus (manager.ts lines 163-165):
allocate a fresh object (reference fresh) holding a field-for-field copy of
the internal status object (reference internal) and return the fresh
reference. -/
def getStatusCopy (h : Heap) (internal fresh : Nat) : Heap :=
  match heapGet h internal with
  | some s => h ++ [(fresh, s)]
  | none => h

/-- Correlator invariant: the pending table has unique keys, no pending id
has been settled, and every id is settled at most once. -/
def CorrInv (m : MState) : Prop :=
  m.pending.Nodup
  ∧ (∀ id ∈ m.pending, settleCount m id = 0)
  ∧ (∀ id, settleCount m id ≤ 1)

/-- Claim C1: with reconnection enabled and no timer pending, any delay
scheduleReconnect schedules equals min(baseDelay * 2^attempts, maxDelay);
below the attempt cap a delay with exactly that value is scheduled; and with
the default config (baseDelay 1000, maxDelay 30000) the delays for attempt
counters 0..5 (attempts 1..6) are 1000, 2000, 4000, 8000, 16000, 30000. -/
theorem C1_reconnect_backoff_delay (m : MState)
    (hsr : m.shouldReconnect = true) (ht : m.reconnectTimer = none) :
    (∀ d, (scheduleReconnect m).reconnectTimer = some d →
      d = reconnectDelay m.cfg m.reconnectAttempts)
    ∧ (m.reconnectAttempts < m.cfg.maxAttempts →
      (scheduleReconnect m).reconnectTimer =
        some (reconnectDelay m.cfg m.reconnectAttempts))
    ∧ (List.range 6).map (reconnectDelay defaultReconnectConfig) =
        [1000, 2000, 4000, 8000, 16000, 30000] := by
  refine ⟨?_, ?_, by decide⟩
  · intro d hd
    by_cases hmax : m.cfg.maxAttempts ≤ m.reconnectAttempts
    · simp [scheduleReconnect, hsr, ht, hmax] at hd
    · simp [scheduleReconnect, hsr, ht, hmax] at hd
      exact hd.symm
  · intro hlt
    simp [scheduleReconnect, hsr, ht, Nat.not_le.mpr hlt]

/-- Witness for C1 at a concrete state: a fresh manager (attempt counter 0)
schedules the first reconnect delay 1000 ms. -/
theorem C1_reconnect_backoff_delay_witness :
    (scheduleReconnect (initialState 4444)).reconnectTimer = some 1000 := by
  have h := C1_reconnect_backoff_delay (initialState 4444) rfl rfl
  have h2 := h.2.1 (by decide)
  simpa using h2

/-- Claim C3: a call to rpc while the socket is absent or not OPEN rejects
immediately with the not-connected error, sends no frame, creates no pending
entry and leaves the whole manager state unchanged. -/
theorem C3_rpc_not_connected (m : MState) (id : String) (sendOk : Bool)
    (h : m.ws ≠ some WSState.opened) :
    rpcAttempt m id sendOk = (m, RpcImmediate.notConnected, false) := by
  simp [rpcAttempt, h]

/-- Witness for C3 at a concrete state: a fresh manager has no socket. -/
theorem C3_rpc_not_connected_witness :
    rpcAttempt (initialState 4444) "req-1" true =
      (initialState 4444, RpcImmediate.notConnected, false) :=
  C3_rpc_not_connected (initialState 4444) "req-1" true (by decide)

/-- Claim C5: a start call made while the start-lock is held returns with no
state change and no action; and any single start call spawns at most one
process and makes at most one connection attempt. -/
theorem C5_start_lock_no_op (env : StartEnv) (m : MState)
    (h : m.startLock = true) :
    startCall env m = (m, [])
    ∧ ∀ env2 m2, (startCall env2 m2).2.count StartAction.spawnProcess ≤ 1
      ∧ (startCall env2 m2).2.count StartAction.connectAttempt ≤ 1 := by
  refine ⟨by simp [startCall, h], ?_⟩
  intro env2 m2
  unfold startCall
  split
  · simp
  · split
    · simp
    · split <;> simp [List.count_cons]

/-- Witness for C5 at a concrete locked state: the overlapping second start
call is an exact no-op. -/
theorem C5_start_lock_no_op_witness :
    startCall { existingGateway := false }
        { initialState 4444 with startLock := true } =
      ({ initialState 4444 with startLock := true }, []) :=
  (C5_start_lock_no_op { existingGateway := false }
    { initialState 4444 with startLock := true } rfl).1

/-- Claim C7: once the attempt counter has reached maxAttempts,
scheduleReconnect schedules no timer and sets terminal error status carrying
the attempt count; calling it again from that state still schedules nothing;
and the synchronous head of a manual start always clears any pending
reconnect timer and resets the attempt counter to zero before connecting. -/
theorem C7_max_attempts_terminal (m : MState)
    (hsr : m.shouldReconnect = true) (ht : m.reconnectTimer = none)
    (hmax : m.cfg.maxAttempts ≤ m.reconnectAttempts) :
    (scheduleReconnect m).status.state = GState.error
    ∧ (scheduleReconnect m).status.reconnectAttempts = some m.reconnectAttempts
    ∧ (scheduleReconnect m).status.error =
        some "Failed to reconnect after maximum attempts"
    ∧ (scheduleReconnect m).reconnectTimer = none
    ∧ (scheduleReconnect (scheduleReconnect m)).reconnectTimer = none
    ∧ (∀ m2 : MState, (startHead m2).reconnectTimer = none
        ∧ (startHead m2).reconnectAttempts = 0) := by
  have hs : scheduleReconnect m = { m with status := { m.status with
      state := GState.error,
      error := some "Failed to reconnect after maximum attempts",
      reconnectAttempts := some m.reconnectAttempts } } := by
    simp [scheduleReconnect, hsr, ht, hmax]
  refine ⟨by rw [hs], by rw [hs], by rw [hs], by rw [hs]; exact ht, ?_, ?_⟩
  · rw [hs]
    simp [scheduleReconnect, hsr, ht, hmax]
  · intro m2
    exact ⟨rfl, rfl⟩

/-- Witness for C7 at a concrete state with the counter at the default cap. -/
theorem C7_max_attempts_terminal_witness :
    (scheduleReconnect
      { initialState 4444 with reconnectAttempts := 10 }).status.state =
      GState.error
    ∧ (scheduleReconnect
      { initialState 4444 with reconnectAttempts := 10 }).reconnectTimer =
      none := by
  have h := C7_max_attempts_terminal
    { initialState 4444 with reconnectAttempts := 10 } rfl rfl (by decide)
  exact ⟨h.1, h.2.2.2.1⟩

/-- Claim C8: stop sends SIGTERM exactly when there is a current process
handle and it is owned, in which case a force-kill timer with the 5-second
grace period is also scheduled (and the SIGKILL it carries fires exactly
when the process has not yet exited); a non-owned (external) process is
never sent any OS signal, and when the socket is OPEN it is instead asked to
shut down gracefully over the protocol. -/
theorem C8_stop_termination (m : MState) :
    ((∃ pid, StopAction.sigterm pid ∈ stopActions m) ↔
      m.ownsProcess = true ∧ m.processHandle.isSome = true)
    ∧ (m.ownsProcess = false →
        (∀ pid, StopAction.sigterm pid ∉ stopActions m)
        ∧ (∀ g, StopAction.scheduleForceKill g ∉ stopActions m))
    ∧ (m.ownsProcess = false → m.ws = some WSState.opened →
        StopAction.requestShutdownRpc ∈ stopActions m)
    ∧ (m.ownsProcess = true → m.processHandle.isSome = true →
        StopAction.scheduleForceKill 5000 ∈ stopActions m)
    ∧ (∀ ec : Option Int, forceKillFires ec = true ↔ ec = none) := by
  refine ⟨⟨?_, ?_⟩, ?_, ?_, ?_, ?_⟩
  · rintro ⟨pid, hmem⟩
    unfold stopActions at hmem
    rcases List.mem_append.mp hmem with h12 | h3
    · rcases List.mem_append.mp h12 with h1 | h2
      · split at h1 <;> simp at h1
      · split at h2 <;> simp at h2
    · split at h3
      · rename_i pid2 hph ho
        refine ⟨ho, ?_⟩
        rw [hph]
        rfl
      · simp at h3
  · rintro ⟨ho, hp⟩
    rcases hph : m.processHandle with _ | pid
    · rw [hph] at hp
      simp at hp
    · exact ⟨pid, by simp [stopActions, ho, hph]⟩
  · intro ho
    rcases hph : m.processHandle with _ | pid <;>
      constructor <;> intro x <;>
      simp [stopActions, ho, hph]
  · intro ho hw
    simp [stopActions, ho, hw]
  · intro ho hp
    rcases hph : m.processHandle with _ | pid
    · rw [hph] at hp
      simp at hp
    · simp [stopActions, ho, hph]
  · intro ec
    cases ec <;> simp [forceKillFires]

/-- Witness for C8 at a concrete state: an owned process with pid 321 gets
SIGTERM and a 5000 ms force-kill timer. -/
theorem C8_stop_termination_witness :
    StopAction.scheduleForceKill 5000 ∈
      stopActions { initialState 4444 with
        ownsProcess := true, processHandle := some 321 } := by
  have h := C8_stop_termination { initialState 4444 with
    ownsProcess := true, processHandle := some 321 }
  exact h.2.2.2.1 rfl rfl

/-- Claim C6 (code defect): the inline comment and the spec say the default
provider key is preferred, but the per-type loop runs after the default
block and overwrites the same environment variable.  At an input where the
default provider (instance p1 of type anthropic, key sk-default) and the
stored type-keyed provider (anthropic, key sk-legacy) map to the same
variable, the environment ends up with the type-keyed value, not the default
key of the default provider, and it propagates to the child environment. -/
theorem C6_default_key_overwritten :
    (buildProviderEnv (some "p1")
      (fun pid => if pid = "p1" then some "anthropic" else none)
      (fun i => if i = "p1" then some "sk-default" else
                if i = "anthropic" then some "sk-legacy" else none)
      (fun ty => if ty = "anthropic" then some "ANTHROPIC_API_KEY" else none)
      ["anthropic"]) "ANTHROPIC_API_KEY" = some "sk-legacy"
    ∧ (childEnv (fun _ => none)
        (buildProviderEnv (some "p1")
          (fun pid => if pid = "p1" then some "anthropic" else none)
          (fun i => if i = "p1" then some "sk-default" else
                    if i = "anthropic" then some "sk-legacy" else none)
          (fun ty => if ty = "anthropic" then some "ANTHROPIC_API_KEY"
                     else none)
          ["anthropic"])
        (fun _ => none) "ANTHROPIC_API_KEY") = some "sk-legacy"
    ∧ some "sk-legacy" ≠ some "sk-default" := by
  refine ⟨by rfl, by rfl, by decide⟩

/-- Claim C9 counterexample: a matched response frame with ok true and no
payload field resolves the pending call with the entire frame object
(payload ?? frame), not with the (absent) payload of the frame. -/
theorem C9_missing_payload_counterexample :
    (handleRes { initialState 4444 with pending := ["x"] }
      { id := "x", ok := some true, error := none, payload := none }).2 =
        some (ResOutcome.resolve ResolveVal.wholeFrame)
    ∧ (∀ p, ResOutcome.resolve ResolveVal.wholeFrame ≠
        ResOutcome.resolve (ResolveVal.payloadVal p)) := by
  constructor
  · rfl
  · intro p
    simp

/-- Claim C9 as amended: a matched response frame rejects with the remote
error message when ok is false or a (truthy) error field is present;
otherwise it resolves with the payload of the frame when the payload is present
and non-nullish, and with the entire frame when it is absent; settlement
removes the entry from the pending table. -/
theorem C9_response_settlement (m : MState) (f : ResFrame)
    (h : f.id ∈ m.pending) :
    ((f.ok = some false ∨ f.error.isSome = true) →
      (handleRes m f).2 = some (ResOutcome.reject (errMsgOf f.error)))
    ∧ (¬(f.ok = some false ∨ f.error.isSome = true) →
      (handleRes m f).2 = some (match f.payload with
        | some p => ResOutcome.resolve (ResolveVal.payloadVal p)
        | none => ResOutcome.resolve ResolveVal.wholeFrame))
    ∧ (handleRes m f).1.pending = m.pending.erase f.id := by
  refine ⟨?_, ?_, by simp [handleRes, h]⟩
  · intro hrej
    simp [handleRes, h, settleOfRes, hrej]
  · intro hres
    simp only [handleRes, if_pos h, settleOfRes, if_neg hres]

/-- Witness for C9 at a concrete state: a matched error response rejects
with the remote message. -/
theorem C9_response_settlement_witness :
    (handleRes { initialState 4444 with pending := ["x"] }
      { id := "x", ok := some false,
        error := some { message := some "boom", code := some 3 },
        payload := none }).2 = some (ResOutcome.reject "boom") := by
  have h := C9_response_settlement
    { initialState 4444 with pending := ["x"] }
    { id := "x", ok := some false,
      error := some { message := some "boom", code := some 3 },
      payload := none } (by decide)
  have h2 := h.1 (Or.inl rfl)
  simpa [errMsgOf] using h2

/-- A reference found in a heap is still found, with the same object, after
appending further allocations. -/
theorem heapGet_append_of_some {h : Heap} {r : Nat} {s : GatewayStatus}
    (hh : heapGet h r = some s) (l : Heap) : heapGet (h ++ l) r = some s := by
  induction h with
  | nil => simp [heapGet] at hh
  | cons p t ih =>
    by_cases hp : p.1 = r
    · simpa [heapGet, hp] using hh
    · simp [heapGet, hp] at hh ⊢
      exact ih hh

/-- Allocating a fresh reference makes it point at the allocated object. -/
theorem heapGet_append_fresh {h : Heap} {r : Nat}
    (hh : heapGet h r = none) (s : GatewayStatus) :
    heapGet (h ++ [(r, s)]) r = some s := by
  induction h with
  | nil => simp [heapGet]
  | cons p t ih =>
    by_cases hp : p.1 = r
    · simp [heapGet, hp] at hh
    · simp [heapGet, hp] at hh ⊢
      exact ih hh

/-- Writing through one reference leaves what every other reference points
at unchanged. -/
theorem heapGet_heapSet_ne {h : Heap} {r r2 : Nat} (hne : r2 ≠ r)
    (s : GatewayStatus) : heapGet (heapSet h r s) r2 = heapGet h r2 := by
  induction h with
  | nil => rfl
  | cons p t ih =>
    by_cases hp : p.1 = r
    · have hp2 : ¬ (r = r2) := fun hc => hne hc.symm
      have hp3 : ¬ (p.1 = r2) := fun hc => hne (by rw [← hc, hp])
      simp [heapGet, heapSet, hp, hp2, hp3]
      exact ih
    · by_cases hq : p.1 = r2
      · simp [heapGet, heapSet, hp, hq, hne]
      · simp [heapGet, heapSet, hp, hq]
        exact ih

/-- Claim C10: getStatus returns a fresh copy of the internal status object;
the copy holds the same field values, and mutating the object behind the
returned reference leaves the object behind the internal reference, hence
what every later getStatus call or status event reads, unchanged. -/
theorem C10_getStatus_returns_copy (h : Heap) (internal fresh : Nat)
    (s0 upd : GatewayStatus)
    (hint : heapGet h internal = some s0)
    (hfresh : heapGet h fresh = none)
    (hne : fresh ≠ internal) :
    heapGet (getStatusCopy h internal fresh) fresh = some s0
    ∧ heapGet (heapSet (getStatusCopy h internal fresh) fresh upd) internal =
        some s0 := by
  constructor
  · unfold getStatusCopy
    rw [hint]
    exact heapGet_append_fresh hfresh s0
  · rw [heapGet_heapSet_ne (fun hc => hne hc.symm) upd]
    unfold getStatusCopy
    rw [hint]
    exact heapGet_append_of_some hint _

/-- Witness for C10 at a concrete heap: internal reference 0, returned
reference 1; overwriting the state field of the returned copy leaves the
internal object intact. -/
theorem C10_getStatus_returns_copy_witness :
    heapGet
      (heapSet
        (getStatusCopy
          [(0, { state := GState.running, port := 7, pid := some 4,
                 uptime := none, error := none, connectedAt := some 9,
                 version := none, reconnectAttempts := none })] 0 1)
        1
        { state := GState.stopped, port := 0, pid := none, uptime := none,
          error := none, connectedAt := none, version := none,
          reconnectAttempts := none })
      0 =
      some { state := GState.running, port := 7, pid := some 4,
             uptime := none, error := none, connectedAt := some 9,
             version := none, reconnectAttempts := none } :=
  (C10_getStatus_returns_copy
    [(0, { state := GState.running, port := 7, pid := some 4,
           uptime := none, error := none, connectedAt := some 9,
           version := none, reconnectAttempts := none })] 0 1
    { state := GState.running, port := 7, pid := some 4,
      uptime := none, error := none, connectedAt := some 9,
      version := none, reconnectAttempts := none }
    { state := GState.stopped, port := 0, pid := none, uptime := none,
      error := none, connectedAt := none, version := none,
      reconnectAttempts := none }
    rfl rfl (by decide)).2

/-- Running no events is the identity. -/
theorem runEvents_nil (m : MState) : runEvents m [] = m := rfl

/-- Running a cons is one step then the rest. -/
theorem runEvents_cons (m : MState) (e : RpcEvent) (t : List RpcEvent) :
    runEvents m (e :: t) = runEvents (stepCorr m e) t := rfl

/-- Running an append runs the pieces in order. -/
theorem runEvents_append (m : MState) (t1 t2 : List RpcEvent) :
    runEvents m (t1 ++ t2) = runEvents (runEvents m t1) t2 := by
  simp [runEvents, List.foldl_append]

/-- Pending-table events do not touch the control fields: the reconnect
guard, the timers and the status. -/
theorem stepCorr_ctrl (m : MState) (e : RpcEvent) :
    (stepCorr m e).shouldReconnect = m.shouldReconnect
    ∧ (stepCorr m e).reconnectTimer = m.reconnectTimer
    ∧ (stepCorr m e).pingOn = m.pingOn
    ∧ (stepCorr m e).healthOn = m.healthOn
    ∧ (stepCorr m e).status = m.status
    ∧ (stepCorr m e).cfg = m.cfg := by
  cases e with
  | call id => exact ⟨rfl, rfl, rfl, rfl, rfl, rfl⟩
  | callSendFail id => exact ⟨rfl, rfl, rfl, rfl, rfl, rfl⟩
  | response id ok =>
    by_cases h : id ∈ m.pending <;> simp [stepCorr, h]
  | timeoutFire id =>
    by_cases h : id ∈ m.pending <;> simp [stepCorr, h]
  | stopAll => exact ⟨rfl, rfl, rfl, rfl, rfl, rfl⟩

/-- Control fields are preserved along any event run. -/
theorem runEvents_ctrl (t : List RpcEvent) (m : MState) :
    (runEvents m t).shouldReconnect = m.shouldReconnect
    ∧ (runEvents m t).reconnectTimer = m.reconnectTimer
    ∧ (runEvents m t).pingOn = m.pingOn
    ∧ (runEvents m t).healthOn = m.healthOn
    ∧ (runEvents m t).status = m.status
    ∧ (runEvents m t).cfg = m.cfg := by
  induction t generalizing m with
  | nil => exact ⟨rfl, rfl, rfl, rfl, rfl, rfl⟩
  | cons e t ih =>
    rw [runEvents_cons]
    have hs := stepCorr_ctrl m e
    have hr := ih (stepCorr m e)
    exact ⟨hr.1.trans hs.1, hr.2.1.trans hs.2.1, hr.2.2.1.trans hs.2.2.1,
      hr.2.2.2.1.trans hs.2.2.2.1, hr.2.2.2.2.1.trans hs.2.2.2.2.1,
      hr.2.2.2.2.2.trans hs.2.2.2.2.2⟩

/-- The settlement history only grows across a step. -/
theorem hist_mem_step {x : String × SettleKind} {m : MState}
    (e : RpcEvent) (hx : x ∈ m.history) : x ∈ (stepCorr m e).history := by
  cases e with
  | call id => exact hx
  | callSendFail id => exact List.mem_append_left _ hx
  | response id ok =>
    simp only [stepCorr]
    split
    · exact List.mem_append_left _ hx
    · exact hx
  | timeoutFire id =>
    simp only [stepCorr]
    split
    · exact List.mem_append_left _ hx
    · exact hx
  | stopAll => exact List.mem_append_left _ hx

/-- The settlement history only grows across a run. -/
theorem hist_mem_run {x : String × SettleKind} {m : MState}
    (t : List RpcEvent) (hx : x ∈ m.history) : x ∈ (runEvents m t).history := by
  induction t generalizing m with
  | nil => exact hx
  | cons e t ih => exact ih (hist_mem_step e hx)

/-- Settlement counts never decrease across a step. -/
theorem settleCount_le_step (m : MState) (e : RpcEvent) (id : String) :
    settleCount m id ≤ settleCount (stepCorr m e) id := by
  cases e with
  | call i => exact Nat.le_refl _
  | callSendFail i =>
    simp [settleCount, stepCorr, List.countP_append]
  | response i ok =>
    simp only [stepCorr]
    split
    · simp [settleCount, List.countP_append]
    · exact Nat.le_refl _
  | timeoutFire i =>
    simp only [stepCorr]
    split
    · simp [settleCount, List.countP_append]
    · exact Nat.le_refl _
  | stopAll =>
    simp [settleCount, stepCorr, List.countP_append]

/-- Settlement counts never decrease across a run. -/
theorem settleCount_le_run (t : List RpcEvent) (m : MState) (id : String) :
    settleCount m id ≤ settleCount (runEvents m t) id := by
  induction t generalizing m with
  | nil => exact Nat.le_refl _
  | cons e t ih =>
    exact Nat.le_trans (settleCount_le_step m e id) (ih (stepCorr m e))

/-- In a duplicate-free list each id occurs at most once. -/
theorem countP_id_le_one_of_nodup {l : List String} (hl : l.Nodup)
    (id : String) : l.countP (fun i => i = id) ≤ 1 := by
  induction l with
  | nil => simp
  | cons a t ih =>
    rw [List.countP_cons]
    rcases List.nodup_cons.mp hl with ⟨hna, hnd⟩
    by_cases ha : a = id
    · have hz : t.countP (fun i => i = id) = 0 := by
        apply List.countP_eq_zero.mpr
        intro x hx
        simp only [decide_eq_true_eq]
        exact fun hxe => hna (by rw [ha, ← hxe]; exact hx)
      simp [hz, ha]
    · have := ih hnd
      simp [ha]
      omega

/-- The correlator invariant holds in a freshly constructed manager. -/
theorem corrInv_initial (port : Nat) : CorrInv (initialState port) := by
  refine ⟨List.nodup_nil, ?_, ?_⟩
  · intro j hj
    simp [initialState] at hj
  · intro j
    simp [settleCount, initialState]

/-- The correlator invariant is preserved by every valid event. -/
theorem corrInv_step {m : MState} {e : RpcEvent}
    (hv : validEvent m e) (hi : CorrInv m) : CorrInv (stepCorr m e) := by
  obtain ⟨hnd, hpz, hle⟩ := hi
  cases e with
  | call id =>
    obtain ⟨hfresh, hhist⟩ := hv
    refine ⟨?_, ?_, ?_⟩
    · show (m.pending ++ [id]).Nodup
      rw [List.nodup_append]
      refine ⟨hnd, List.nodup_singleton id, ?_⟩
      intro a ha hb
      rw [List.mem_singleton] at hb
      exact hfresh (hb ▸ ha)
    · intro j hj
      have hj2 : j ∈ m.pending ++ [id] := hj
      show settleCount m j = 0
      rcases List.mem_append.mp hj2 with h1 | h2
      · exact hpz j h1
      · rw [List.mem_singleton] at h2
        subst h2
        apply List.countP_eq_zero.mpr
        intro a ha
        simp only [decide_eq_true_eq]
        exact hhist a ha
    · intro j
      show settleCount m j ≤ 1
      exact hle j
  | callSendFail id =>
    obtain ⟨hfresh, hhist⟩ := hv
    refine ⟨hnd, ?_, ?_⟩
    · intro j hj
      have hz := hpz j hj
      have hne : j ≠ id := fun hc => hfresh (hc ▸ hj)
      simp only [settleCount, stepCorr] at hz ⊢
      rw [List.countP_append, List.countP_cons, List.countP_nil]
      simp [hz, Ne.symm hne]
    · intro j
      by_cases hj : j = id
      · subst hj
        have hz : m.history.countP (fun e => e.1 = j) = 0 := by
          apply List.countP_eq_zero.mpr
          intro a ha
          simp only [decide_eq_true_eq]
          exact hhist a ha
        simp only [settleCount, stepCorr]
        rw [List.countP_append, List.countP_cons, List.countP_nil]
        simp [hz]
      · have hl := hle j
        simp only [settleCount, stepCorr] at hl ⊢
        rw [List.countP_append, List.countP_cons, List.countP_nil]
        simp [Ne.symm hj]
        exact hl
  | response i ok =>
    simp only [stepCorr]
    by_cases hid : i ∈ m.pending
    · rw [if_pos hid]
      refine ⟨List.Nodup.erase i hnd, ?_, ?_⟩
      · intro j hj
        have hj2 : j ≠ i ∧ j ∈ m.pending :=
          (List.Nodup.mem_erase_iff hnd).mp hj
        have hz := hpz j hj2.2
        simp only [settleCount] at hz ⊢
        rw [List.countP_append, List.countP_cons, List.countP_nil]
        simp [hz, Ne.symm hj2.1]
      · intro j
        by_cases hji : j = i
        · subst hji
          have hz := hpz j hid
          simp only [settleCount] at hz ⊢
          rw [List.countP_append, List.countP_cons, List.countP_nil]
          simp [hz]
        · have hl := hle j
          simp only [settleCount] at hl ⊢
          rw [List.countP_append, List.countP_cons, List.countP_nil]
          simp [Ne.symm hji]
          exact hl
    · rw [if_neg hid]
      exact ⟨hnd, hpz, hle⟩
  | timeoutFire i =>
    simp only [stepCorr]
    by_cases hid : i ∈ m.pending
    · rw [if_pos hid]
      refine ⟨List.Nodup.erase i hnd, ?_, ?_⟩
      · intro j hj
        have hj2 : j ≠ i ∧ j ∈ m.pending :=
          (List.Nodup.mem_erase_iff hnd).mp hj
        have hz := hpz j hj2.2
        simp only [settleCount] at hz ⊢
        rw [List.countP_append, List.countP_cons, List.countP_nil]
        simp [hz, Ne.symm hj2.1]
      · intro j
        by_cases hji : j = i
        · subst hji
          have hz := hpz j hid
          simp only [settleCount] at hz ⊢
          rw [List.countP_append, List.countP_cons, List.countP_nil]
          simp [hz]
        · have hl := hle j
          simp only [settleCount] at hl ⊢
          rw [List.countP_append, List.countP_cons, List.countP_nil]
          simp [Ne.symm hji]
          exact hl
    · rw [if_neg hid]
      exact ⟨hnd, hpz, hle⟩
  | stopAll =>
    refine ⟨List.nodup_nil, ?_, ?_⟩
    · intro j hj
      simp [stepCorr] at hj
    · intro j
      simp only [settleCount, stepCorr]
      rw [List.countP_append, List.countP_map]
      by_cases hj : j ∈ m.pending
      · have hz := hpz j hj
        simp only [settleCount] at hz
        have hc := countP_id_le_one_of_nodup hnd j
        have he : m.pending.countP
            ((fun e => decide (e.1 = j)) ∘ fun i => (i, SettleKind.rejectedStopped)) =
            m.pending.countP (fun i => i = j) := by
          apply List.countP_congr
          intro a ha
          simp
        rw [he, hz]
        simpa using hc
      · have hz : m.pending.countP
            ((fun e => decide (e.1 = j)) ∘ fun i => (i, SettleKind.rejectedStopped)) = 0 := by
          apply List.countP_eq_zero.mpr
          intro a ha
          simp only [Function.comp_apply, decide_eq_true_eq]
          exact fun hc => hj (hc ▸ ha)
        have hl := hle j
        simp only [settleCount] at hl
        rw [hz]
        simpa using hl

/-- The correlator invariant is preserved along any valid trace. -/
theorem corrInv_run {m : MState} {t : List RpcEvent}
    (hv : ValidTrace m t) (hi : CorrInv m) : CorrInv (runEvents m t) := by
  induction t generalizing m with
  | nil => exact hi
  | cons e t ih =>
    rw [runEvents_cons]
    exact ih hv.2 (corrInv_step hv.1 hi)

/-- A list containing two distinct elements both satisfying a predicate has
at least two matches. -/
theorem two_le_countP {α : Type} (p : α → Bool) {a b : α} {l : List α}
    (ha : a ∈ l) (hb : b ∈ l) (hab : a ≠ b)
    (hpa : p a = true) (hpb : p b = true) : 2 ≤ l.countP p := by
  induction l with
  | nil => simp at ha
  | cons c t ih =>
    rw [List.countP_cons]
    rcases List.mem_cons.mp ha with hac | hat
    · rcases List.mem_cons.mp hb with hbc | hbt
      · exact absurd (hac.trans hbc.symm) hab
      · have hc : p c = true := hac ▸ hpa
        simp [hc]
        exact ⟨b, hbt, hpb⟩
    · rcases List.mem_cons.mp hb with hbc | hbt
      · have hc : p c = true := hbc ▸ hpb
        simp [hc]
        exact ⟨a, hat, hpa⟩
      · have := ih hat hbt
        omega

/-- Once an rpc call registered an entry, at the end of a valid run the id is
either still pending or has been settled at least once. -/
theorem call_pending_or_settled {t : List RpcEvent} {m : MState} {id : String}
    (hv : ValidTrace m t) (h0 : id ∈ m.pending ∨ RpcEvent.call id ∈ t) :
    id ∈ (runEvents m t).pending ∨ 1 ≤ settleCount (runEvents m t) id := by
  induction t generalizing m with
  | nil =>
    rcases h0 with h | h
    · exact Or.inl h
    · simp at h
  | cons e t ih =>
    obtain ⟨hve, hvt⟩ := hv
    rw [runEvents_cons]
    rcases h0 with hp | hc
    · have hstep : id ∈ (stepCorr m e).pending
          ∨ 1 ≤ settleCount (stepCorr m e) id := by
        cases e with
        | call i =>
          exact Or.inl (show id ∈ m.pending ++ [i] from
            List.mem_append_left _ hp)
        | callSendFail i => exact Or.inl hp
        | response i ok =>
          simp only [stepCorr]
          by_cases hi : i ∈ m.pending
          · rw [if_pos hi]
            by_cases hii : id = i
            · subst hii
              right
              simp only [settleCount]
              rw [List.countP_append, List.countP_cons, List.countP_nil]
              simp
            · exact Or.inl ((List.mem_erase_of_ne hii).mpr hp)
          · rw [if_neg hi]
            exact Or.inl hp
        | timeoutFire i =>
          simp only [stepCorr]
          by_cases hi : i ∈ m.pending
          · rw [if_pos hi]
            by_cases hii : id = i
            · subst hii
              right
              simp only [settleCount]
              rw [List.countP_append, List.countP_cons, List.countP_nil]
              simp
            · exact Or.inl ((List.mem_erase_of_ne hii).mpr hp)
          · rw [if_neg hi]
            exact Or.inl hp
        | stopAll =>
          right
          simp only [settleCount, stepCorr]
          rw [List.countP_append, List.countP_map]
          have h1 : 0 < m.pending.countP
              ((fun e => decide (e.1 = id)) ∘
                fun i => (i, SettleKind.rejectedStopped)) :=
            List.countP_pos_iff.mpr ⟨id, hp, by simp⟩
          omega
      rcases hstep with hl | hr
      · exact ih hvt (Or.inl hl)
      · exact Or.inr (Nat.le_trans hr
          (settleCount_le_run t (stepCorr m e) id))
    · rcases List.mem_cons.mp hc with hce | hct
      · have hcall : e = RpcEvent.call id := hce.symm
        subst hcall
        refine ih hvt (Or.inl ?_)
        exact show id ∈ m.pending ++ [id] from
          List.mem_append_right _ (List.mem_singleton.mpr rfl)
      · exact ih hvt (Or.inr hct)

/-- A timeout that fires in a valid trace leaves a timeout rejection for its
id in the settlement history of the final state. -/
theorem timeout_settles {t : List RpcEvent} {m : MState} {id : String}
    (hv : ValidTrace m t) (hmem : RpcEvent.timeoutFire id ∈ t) :
    (id, SettleKind.rejectedTimeout) ∈ (runEvents m t).history := by
  induction t generalizing m with
  | nil => simp at hmem
  | cons e t ih =>
    obtain ⟨hve, hvt⟩ := hv
    rw [runEvents_cons]
    rcases List.mem_cons.mp hmem with hce | hct
    · have he : e = RpcEvent.timeoutFire id := hce.symm
      subst he
      have hp : id ∈ m.pending := hve
      refine hist_mem_run t ?_
      simp only [stepCorr]
      rw [if_pos hp]
      exact List.mem_append_right _ (List.mem_singleton.mpr rfl)
    · exact ih hvt hct

/-- Appending the stop rejection sweep keeps a trace valid. -/
theorem validTrace_append_stopAll {m : MState} {t : List RpcEvent}
    (hv : ValidTrace m t) :
    ValidTrace m (t ++ [RpcEvent.stopAll]) := by
  induction t generalizing m with
  | nil => exact ⟨trivial, trivial⟩
  | cons e t ih => exact ⟨hv.1, ih hv.2⟩

/-- Claim C2: along any valid event trace from a fresh manager, every
request id is settled at most once; a settled id is no longer in the pending
table (settlement removed the entry, and its timer cannot fire again since
timers only fire while the entry is pending); once the timeout of the id has
fired, no resolution is ever recorded for it, so a late response cannot
resolve or reject the call; and a call that is followed by the stop sweep is
settled exactly once — by its response, its timeout or the stop rejection,
whichever came first. -/
theorem C2_settled_exactly_once (port : Nat) (t : List RpcEvent) (id : String)
    (hv : ValidTrace (initialState port) t) :
    settleCount (runEvents (initialState port) t) id ≤ 1
    ∧ (id ∈ (runEvents (initialState port) t).pending →
        settleCount (runEvents (initialState port) t) id = 0)
    ∧ (RpcEvent.timeoutFire id ∈ t →
        (id, SettleKind.resolved) ∉ (runEvents (initialState port) t).history)
    ∧ (RpcEvent.call id ∈ t →
        settleCount (runEvents (initialState port) (t ++ [RpcEvent.stopAll]))
          id = 1) := by
  have hinv := corrInv_run hv (corrInv_initial port)
  refine ⟨hinv.2.2 id, hinv.2.1 id, ?_, ?_⟩
  · intro htm hres
    have hto := timeout_settles hv htm
    have h2 := two_le_countP (fun e => e.1 = id) hres hto
      (by simp) (by simp) (by simp)
    have h1 := hinv.2.2 id
    simp only [settleCount] at h1
    omega
  · intro hcall
    have hva := validTrace_append_stopAll hv
    have hr := call_pending_or_settled hva
      (Or.inr (List.mem_append_left _ hcall))
    have hinv2 := corrInv_run hva (corrInv_initial port)
    have hp : (runEvents (initialState port)
        (t ++ [RpcEvent.stopAll])).pending = [] := by
      rw [runEvents_append]
      rfl
    rcases hr with hl | hge
    · rw [hp] at hl
      simp at hl
    · have hle := hinv2.2.2 id
      omega

/-- Witness for C2 on a concrete trace: a call whose timeout fires and whose
response then arrives late is settled at most once and never resolved. -/
theorem C2_settled_exactly_once_witness :
    settleCount (runEvents (initialState 4444)
      [RpcEvent.call "a", RpcEvent.timeoutFire "a",
        RpcEvent.response "a" true]) "a" ≤ 1
    ∧ ("a", SettleKind.resolved) ∉ (runEvents (initialState 4444)
      [RpcEvent.call "a", RpcEvent.timeoutFire "a",
        RpcEvent.response "a" true]).history := by
  have hv : ValidTrace (initialState 4444)
      [RpcEvent.call "a", RpcEvent.timeoutFire "a",
        RpcEvent.response "a" true] := by
    simp [ValidTrace, validEvent, stepCorr, initialState]
  have h := C2_settled_exactly_once 4444
    [RpcEvent.call "a", RpcEvent.timeoutFire "a",
      RpcEvent.response "a" true] "a" hv
  exact ⟨h.1, h.2.2.1 (by simp)⟩

/-- With auto-reconnect disabled, scheduleReconnect is a no-op. -/
theorem scheduleReconnect_disabled {m : MState}
    (h : m.shouldReconnect = false) : scheduleReconnect m = m := by
  simp [scheduleReconnect, h]

/-- Phase 1 of stop disables the reconnect guard and cancels the reconnect,
ping and health-check timers. -/
theorem stopPhase1_ctrl (m : MState) (sid : String) :
    (stopPhase1 m sid).shouldReconnect = false
    ∧ (stopPhase1 m sid).reconnectTimer = none
    ∧ (stopPhase1 m sid).pingOn = false
    ∧ (stopPhase1 m sid).healthOn = false := by
  simp only [stopPhase1, stopTimersOff]
  split <;> exact ⟨rfl, rfl, rfl, rfl⟩

/-- Claim C4 counterexample: with an external gateway (socket OPEN, process
not owned) and request a pending, stop awaits the graceful-shutdown rpc, and
a response for a arriving during that await resolves it normally — so the
entry that was in the table when stop was invoked is never rejected with the
stopped error, contradicting the claim as stated. -/
theorem C4_entry_resolved_during_stop_counterexample :
    ("a", SettleKind.resolved) ∈
      (stopRun { initialState 4444 with ws := some WSState.opened, pending := ["a"] } "sid"
        [RpcEvent.response "a" true, RpcEvent.response "sid" true]).history
    ∧ ("a", SettleKind.rejectedStopped) ∉
      (stopRun { initialState 4444 with ws := some WSState.opened, pending := ["a"] } "sid"
        [RpcEvent.response "a" true, RpcEvent.response "sid" true]).history := by
  decide

/-- Claim C4 as amended: when stop() runs, every entry still in the
pending-request table when the final rejection sweep runs is rejected with
the stopped error (entries pending at invocation may instead have been
settled by a response or timeout delivered while stop awaited the external
gateway to shut down gracefully); afterwards the table is empty, the reconnect,
ping and health-check timers are all cancelled, status is stopped, the
reconnect guard is disabled, and scheduleReconnect is a no-op from the
resulting state. -/
theorem C4_stop_rejects_and_disables (m : MState) (sid : String)
    (evs : List RpcEvent) :
    (stopRun m sid evs).pending = []
    ∧ (stopRun m sid evs).reconnectTimer = none
    ∧ (stopRun m sid evs).pingOn = false
    ∧ (stopRun m sid evs).healthOn = false
    ∧ (stopRun m sid evs).shouldReconnect = false
    ∧ (stopRun m sid evs).status.state = GState.stopped
    ∧ (∀ i, i ∈ (runEvents (stopPhase1 m sid) evs).pending →
        (i, SettleKind.rejectedStopped) ∈ (stopRun m sid evs).history)
    ∧ scheduleReconnect (stopRun m sid evs) = stopRun m sid evs := by
  have hctrl := runEvents_ctrl evs (stopPhase1 m sid)
  have hp1 := stopPhase1_ctrl m sid
  have hsr : (stopRun m sid evs).shouldReconnect = false :=
    hctrl.1.trans hp1.1
  refine ⟨rfl, hctrl.2.1.trans hp1.2.1, hctrl.2.2.1.trans hp1.2.2.1,
    hctrl.2.2.2.1.trans hp1.2.2.2, hsr, rfl, ?_, ?_⟩
  · intro i hi
    exact List.mem_append_right _
      (List.mem_map_of_mem (fun i => (i, SettleKind.rejectedStopped)) hi)
  · exact scheduleReconnect_disabled hsr

/-- Witness for C4 at a concrete state: an owned-path stop (no interleaved
events) leaves the table empty and rejects the pending entry with the
stopped error. -/
theorem C4_stop_rejects_and_disables_witness :
    (stopRun { initialState 4444 with ws := some WSState.opened, pending := ["a"] } "sid" []).pending = []
    ∧ ("a", SettleKind.rejectedStopped) ∈
      (stopRun { initialState 4444 with ws := some WSState.opened, pending := ["a"] } "sid" []).history := by
  have h := C4_stop_rejects_and_disables
    { initialState 4444 with ws := some WSState.opened, pending := ["a"] }
    "sid" []
  exact ⟨h.1, h.2.2.2.2.2.2.1 "a" (by decide)⟩
